import Mathlib

/-!
Verification development for the chartisan chart.js adapter hooks module
(`src/hooks.ts`).  Chart configurations are modelled as JSON-like values;
each registration method of the `Hooks` class is translated into a pure
function on a chain of hooks, and each pushed hook into a function on
configurations.  The helpers `mergeOptions`, `colorPalette` and the base
hook chain are imported by the source from the external
`@chartisan/chartisan` package; they are modelled from the specification,
as marked on their doc comments.
-/

/-- A JSON-like value: the shape of chart.js configuration objects.
Objects are association lists of string keys to values, in property
order. -/
inductive JValue where
  | str (s : String)
  | num (n : Int)
  | bool (b : Bool)
  | null
  | arr (xs : List JValue)
  | obj (fields : List (String × JValue))
  deriving Repr

/-- First-match field lookup, mirroring JavaScript property access on an
object given as an ordered field list. -/
def lookupField : List (String × JValue) → String → Option JValue
  | [], _ => none
  | (k2, v) :: rest, k => if k2 = k then some v else lookupField rest k

/-- JavaScript property assignment on an object value: replace the first
occurrence of the key in place, or append the key at the end. -/
def jsSet : List (String × JValue) → String → JValue → List (String × JValue)
  | [], k, v => [(k, v)]
  | (k2, v2) :: rest, k, v =>
      if k2 = k then (k2, v) :: rest else (k2, v2) :: jsSet rest k v

/-- Sequential assignment of each field of the second list onto the first,
as the tail of an object-spread literal does. -/
def jsSetMany (fs : List (String × JValue)) : List (String × JValue) → List (String × JValue)
  | [] => fs
  | (k, v) :: rest => jsSetMany (jsSet fs k v) rest

/-- Last-match lookup: the value the final assignment of a spread leaves at
a key. -/
def lookupLast : List (String × JValue) → String → Option JValue
  | [], _ => none
  | (k2, v) :: rest, k =>
      match lookupLast rest k with
      | some w => some w
      | none => if k2 = k then some v else none

/-- Own enumerable fields, as object spread sees them (none for
primitives). -/
def fieldsOf : JValue → List (String × JValue)
  | .obj fs => fs
  | _ => []

/-- Property access on a value (`none` when the value is not an object or
lacks the key). -/
def getField : JValue → String → Option JValue
  | .obj fs, k => lookupField fs k
  | _, _ => none

/-- Path access: successive `getField` steps. -/
def getPath (v : JValue) : List String → Option JValue
  | [] => some v
  | k :: ks =>
      match getField v k with
      | some w => getPath w ks
      | none => none

mutual
/-- Modelled from the spec: `mergeOptions` is imported from the external
`@chartisan/chartisan` package and its source is not part of this
repository.  Per the spec (§4.2): for each key present in the fragment, if
the base and fragment values at that key are both mappings they are merged
recursively (union of key sets, fragment wins on conflict); otherwise the
fragment value replaces the base value wholesale; keys present only in
the base are preserved unchanged. -/
def mergeOptions (base frag : JValue) : JValue :=
  match frag with
  | .obj fs =>
      match base with
      | .obj bs => .obj (mergeFields bs fs)
      | _ => .obj fs
  | f => f
termination_by sizeOf frag

/-- Modelled from the spec: the key-driven walk of `mergeOptions` over the
fragment fields, updating the base field list one fragment key at a
time. -/
def mergeFields (bs fs : List (String × JValue)) : List (String × JValue) :=
  match fs with
  | [] => bs
  | (k, fv) :: rest =>
      mergeFields
        (jsSet bs k
          (match lookupField bs k with
           | some bv => mergeOptions bv fv
           | none => fv))
        rest
termination_by sizeOf fs
end

/-- Modelled from the spec: `colorPalette`, the process-wide default
ordered sequence of color values, is provided by the external styling
module and is not part of this repository; the spec fixes only that it is
an ordered, immutable sequence consumed by `colors()` when no override is
given, so a stand-in list of distinct colors is used. -/
def colorPalette : List JValue :=
  [.str "#36a2eb", .str "#ff6384", .str "#ff9f40", .str "#ffcd56",
   .str "#4bc0c0", .str "#9966ff", .str "#c9cbcf"]

/-- Cyclic indexing `xs[i % xs.length]`; `null` stands in for the
out-of-range access JavaScript produces when `xs` is empty. -/
def cycleAt (xs : List JValue) (i : Nat) : JValue :=
  xs.getD (i % xs.length) JValue.null

/-- Index-passing map over a dataset list, starting at the given index. -/
def mapWithIndexFrom (f : Nat → JValue → JValue) (start : Nat) :
    List JValue → List JValue
  | [] => []
  | x :: xs => f start x :: mapWithIndexFrom f (start + 1) xs

/-- The dataset sequence of a configuration, when present as an array
(mirrors the `chart.data?.datasets` guard of the source). -/
def getDatasets (chart : JValue) : Option (List JValue) :=
  match getField chart "data" with
  | some (.obj df) =>
      match lookupField df "datasets" with
      | some (.arr ds) => some ds
      | _ => none
  | _ => none

/-- One rebuilt dataset entry of the `colors` hook: the own dataset
fields spread first, then `borderColor` and `backgroundColor` assigned to
the cycled palette entry. -/
def colorsEntry (colors : List JValue) (index : Nat) (dataset : JValue) : JValue :=
  .obj (jsSet (jsSet (fieldsOf dataset) "borderColor" (cycleAt colors index))
    "backgroundColor" (cycleAt colors index))

/-- The hook pushed by `Hooks.colors` (src/hooks.ts lines 42-52): rebuilds
each dataset entry with the cycled border and background color; returns the
configuration unchanged when the dataset sequence is absent. -/
def colorsHook (colors : List JValue) (chart : JValue) : JValue :=
  match chart with
  | .obj cf =>
      match lookupField cf "data" with
      | some (.obj df) =>
          match lookupField df "datasets" with
          | some (.arr ds) =>
              .obj (jsSet cf "data" (.obj (jsSet df "datasets"
                (.arr (mapWithIndexFrom (colorsEntry colors) 0 ds)))))
          | _ => chart
      | _ => chart
  | _ => chart

/-- Shallow object-spread merge of two values, second spread last. -/
def spreadMerge (a b : JValue) : JValue :=
  .obj (jsSetMany (fieldsOf a) (fieldsOf b))

/-- One element of the list accepted by `datasets`: either a bare chart
type tag or a dataset style fragment (the source `DatasetHook`). -/
inductive TypeOrHook where
  | type (t : String)
  | options (fields : List (String × JValue))
  deriving Repr

/-- The argument accepted by `datasets`: a single chart type tag or a list
of tags and style fragments. -/
inductive TypesArg where
  | single (t : String)
  | list (ts : List TypeOrHook)
  deriving Repr

/-- Normalization of one `datasets` list element (src/hooks.ts line 162): a
bare string becomes a one-field type fragment, a style fragment is kept. -/
def normalizeTypeEntry : TypeOrHook → JValue
  | .type t => .obj [("type", .str t)]
  | .options fs => .obj fs

/-- Registration-time normalization of the `datasets` argument
(src/hooks.ts lines 161-163). -/
def normalizeTypes : TypesArg → List JValue
  | .single t => [.obj [("type", .str t)]]
  | .list ts => ts.map normalizeTypeEntry

/-- The hook pushed by `Hooks.datasets` (src/hooks.ts lines 164-175): sets
the top-level chart type to `general`, then spreads the cycled normalized
fragment onto each dataset entry when the dataset sequence is present. -/
def datasetsHook (t : List JValue) (general : String) (chart : JValue) : JValue :=
  match chart with
  | .obj cf =>
      match lookupField cf "data" with
      | some (.obj df) =>
          match lookupField df "datasets" with
          | some (.arr ds) =>
              .obj (jsSet (jsSet cf "type" (.str general)) "data"
                (.obj (jsSet df "datasets"
                  (.arr (mapWithIndexFrom (fun i d => spreadMerge d (cycleAt t i)) 0 ds)))))
          | _ => .obj (jsSet cf "type" (.str general))
      | _ => .obj (jsSet cf "type" (.str general))
  | other => other

/-- The hook pushed by `Hooks.responsive` (src/hooks.ts lines 64-68). -/
def responsiveHook (maintainAspectRatio : Bool) (chart : JValue) : JValue :=
  mergeOptions chart (.obj [("options", .obj
    [("maintainAspectRatio", .bool maintainAspectRatio)])])

/-- The argument accepted by `legend`: a boolean or a legend-options
fragment. -/
inductive LegendArg where
  | bool (b : Bool)
  | options (fields : List (String × JValue))
  deriving Repr

/-- Registration-time normalization of the `legend` argument (src/hooks.ts
line 81): a boolean becomes a one-field display fragment. -/
def normalizeLegend : LegendArg → List (String × JValue)
  | .bool b => [("display", .bool b)]
  | .options fs => fs

/-- The hook pushed by `Hooks.legend` (src/hooks.ts lines 82-86). -/
def legendHook (fields : List (String × JValue)) (chart : JValue) : JValue :=
  mergeOptions chart (.obj [("options", .obj [("legend", .obj fields)])])

/-- The hook pushed by `Hooks.displayAxes` (src/hooks.ts lines 99-112):
in strict mode merges a shared-scale display flag, otherwise merges
single-entry per-axis display arrays. -/
def displayAxesHook (display strict : Bool) (chart : JValue) : JValue :=
  if strict then
    mergeOptions chart (.obj [("options", .obj
      [("scale", .obj [("display", .bool display)])])])
  else
    mergeOptions chart (.obj [("options", .obj [("scales", .obj
      [("xAxes", .arr [.obj [("display", .bool display)]]),
       ("yAxes", .arr [.obj [("display", .bool display)]])])])])

/-- The argument accepted by `padding`: a number or a padding object. -/
inductive PaddingArg where
  | num (n : Int)
  | options (fields : List (String × JValue))
  deriving Repr

/-- The padding value as placed into the fragment. -/
def paddingValue : PaddingArg → JValue
  | .num n => .num n
  | .options fs => .obj fs

/-- The hook pushed by `Hooks.padding` (src/hooks.ts lines 137-141). -/
def paddingHook (p : PaddingArg) (chart : JValue) : JValue :=
  mergeOptions chart (.obj [("options", .obj
    [("layout", .obj [("padding", paddingValue p)])])])

/-- The argument accepted by `title`: a bare string or a title-options
fragment. -/
inductive TitleArg where
  | str (s : String)
  | options (fields : List (String × JValue))
  deriving Repr

/-- Registration-time normalization of the `title` argument (src/hooks.ts
lines 187-190): a bare string becomes a text fragment displayed by
default; an options fragment is spread over a default display flag. -/
def normalizeTitle : TitleArg → JValue
  | .str s => .obj [("text", .str s), ("display", .bool true)]
  | .options fs => .obj (jsSetMany [("display", .bool true)] fs)

/-- The hook pushed by `Hooks.title` (src/hooks.ts lines 191-195). -/
def titleHook (t : JValue) (chart : JValue) : JValue :=
  mergeOptions chart (.obj [("options", .obj [("title", t)])])

/-- The hook pushed by `Hooks.beginAtZero` (src/hooks.ts lines 207-211). -/
def beginAtZeroHook (beginAtZero : Bool) (chart : JValue) : JValue :=
  mergeOptions chart (.obj [("options", .obj [("scales", .obj
    [("yAxes", .arr [.obj [("ticks", .obj
      [("beginAtZero", .bool beginAtZero)])]])])])])

/-- Modelled from the spec: the hook chain of `BaseHooks`, whose class body
lives in the external `@chartisan/chartisan` package — an ordered,
append-only sequence of configuration transformations. -/
structure Hooks where
  hooks : List (JValue → JValue)

/-- Modelled from the spec: pipeline application (§4.3) folds the hooks in
registration order over the base configuration. -/
def applyHooks (self : Hooks) (chart : JValue) : JValue :=
  self.hooks.foldl (fun c f => f c) chart

/-- Appending one hook to the chain (the source `this.hooks.push`). -/
def Hooks.push (self : Hooks) (f : JValue → JValue) : Hooks :=
  ⟨self.hooks ++ [f]⟩

/-- `Hooks.colors` (src/hooks.ts lines 41-54). -/
def Hooks.colors (self : Hooks) (colors : List JValue) : Hooks :=
  self.push (colorsHook colors)

/-- `colors()` with the palette argument left at its default. -/
def Hooks.colorsDefault (self : Hooks) : Hooks :=
  self.colors colorPalette

/-- `Hooks.responsive` (src/hooks.ts lines 63-70). -/
def Hooks.responsive (self : Hooks) (maintainAspectRatio : Bool) : Hooks :=
  self.push (responsiveHook maintainAspectRatio)

/-- `Hooks.legend` (src/hooks.ts lines 80-88). -/
def Hooks.legend (self : Hooks) (legend : LegendArg) : Hooks :=
  self.push (legendHook (normalizeLegend legend))

/-- `Hooks.displayAxes` (src/hooks.ts lines 98-114). -/
def Hooks.displayAxes (self : Hooks) (display strict : Bool) : Hooks :=
  self.push (displayAxesHook display strict)

/-- `Hooks.minimalist` (src/hooks.ts lines 123-127): delegates to `legend`
with a display fragment, then to `displayAxes`. -/
def Hooks.minimalist (self : Hooks) (value : Bool) : Hooks :=
  (self.legend (.options [("display", .bool (!value))])).displayAxes (!value) false

/-- `Hooks.padding` (src/hooks.ts lines 136-143). -/
def Hooks.padding (self : Hooks) (p : PaddingArg) : Hooks :=
  self.push (paddingHook p)

/-- `Hooks.datasets` (src/hooks.ts lines 157-177). -/
def Hooks.datasets (self : Hooks) (types : TypesArg) (general : String) : Hooks :=
  self.push (datasetsHook (normalizeTypes types) general)

/-- `datasets` with the `general` argument left at its default value. -/
def Hooks.datasetsDefault (self : Hooks) (types : TypesArg) : Hooks :=
  self.datasets types "bar"

/-- `Hooks.title` (src/hooks.ts lines 186-197). -/
def Hooks.title (self : Hooks) (t : TitleArg) : Hooks :=
  self.push (titleHook (normalizeTitle t))

/-- `Hooks.beginAtZero` (src/hooks.ts lines 206-213). -/
def Hooks.beginAtZero (self : Hooks) (beginAtZero : Bool) : Hooks :=
  self.push (beginAtZeroHook beginAtZero)

/-! ## Basic lemmas about field access and assignment -/

/-- The value kind test used by the merge engine. -/
def isObj : JValue → Bool
  | .obj _ => true
  | _ => false

/-- First-some choice on optional field values. -/
def orField (o d : Option JValue) : Option JValue :=
  match o with
  | some v => some v
  | none => d

theorem lookup_jsSet (fs : List (String × JValue)) (k : String) (v : JValue) (k2 : String) :
    lookupField (jsSet fs k v) k2 = if k = k2 then some v else lookupField fs k2 := by
  induction fs with
  | nil => simp [jsSet, lookupField]
  | cons p rest ih =>
    obtain ⟨k3, v3⟩ := p
    by_cases h3 : k3 = k
    · subst h3
      by_cases h2 : k3 = k2 <;> simp [jsSet, lookupField, h2]
    · by_cases h2 : k3 = k2
      · subst h2
        have hk : ¬ (k = k3) := fun h => h3 h.symm
        simp [jsSet, h3, lookupField, hk]
      · simp [jsSet, h3, lookupField, h2, ih]

theorem lookupField_eq_none (fs : List (String × JValue)) (k : String)
    (h : k ∉ fs.map Prod.fst) : lookupField fs k = none := by
  induction fs with
  | nil => rfl
  | cons p rest ih =>
    obtain ⟨k2, v⟩ := p
    simp only [List.map_cons, List.mem_cons] at h
    push_neg at h
    have hne : ¬ (k2 = k) := fun he => h.1 (by simp [he])
    simp [lookupField, hne, ih h.2]

theorem lookup_jsSetMany (gs fs : List (String × JValue)) (k : String) :
    lookupField (jsSetMany fs gs) k = orField (lookupLast gs k) (lookupField fs k) := by
  induction gs generalizing fs with
  | nil => simp [jsSetMany, lookupLast, orField]
  | cons p rest ih =>
    obtain ⟨k1, v1⟩ := p
    cases h : lookupLast rest k with
    | some w => simp [jsSetMany, lookupLast, ih, h, orField]
    | none =>
      by_cases h1 : k1 = k <;>
        simp [jsSetMany, lookupLast, ih, h, orField, lookup_jsSet, h1]

theorem length_mapWithIndexFrom (f : Nat → JValue → JValue) (s : Nat) (xs : List JValue) :
    (mapWithIndexFrom f s xs).length = xs.length := by
  induction xs generalizing s with
  | nil => rfl
  | cons x rest ih => simp [mapWithIndexFrom, ih]

theorem getD_mapWithIndexFrom (f : Nat → JValue → JValue) (s : Nat) (xs : List JValue)
    (i : Nat) (y : JValue) (h : i < xs.length) :
    (mapWithIndexFrom f s xs).getD i y = f (s + i) (xs.getD i y) := by
  induction xs generalizing s i with
  | nil => simp at h
  | cons x rest ih =>
    cases i with
    | zero => simp [mapWithIndexFrom]
    | succ j =>
      have hj : j < rest.length := by simpa using h
      have := ih (s + 1) j hj
      simpa [mapWithIndexFrom, Nat.add_assoc, Nat.add_comm 1 j] using this

/-! ## Merge engine lemmas -/

theorem mergeOptions_obj_obj (bs fs : List (String × JValue)) :
    mergeOptions (.obj bs) (.obj fs) = .obj (mergeFields bs fs) := by
  simp [mergeOptions]

theorem mergeOptions_arr (b : JValue) (xs : List JValue) :
    mergeOptions b (.arr xs) = .arr xs := by
  cases b <;> simp [mergeOptions]

theorem mergeOptions_replace (b fv : JValue)
    (h : isObj b = false ∨ isObj fv = false) : mergeOptions b fv = fv := by
  cases fv <;> cases b <;> simp_all [mergeOptions, isObj]

theorem lookup_mergeFields (fs : List (String × JValue)) (bs : List (String × JValue))
    (k : String) (hnd : (fs.map Prod.fst).Nodup) :
    lookupField (mergeFields bs fs) k =
      match lookupField fs k with
      | none => lookupField bs k
      | some fv =>
          some (match lookupField bs k with
                | some bv => mergeOptions bv fv
                | none => fv) := by
  induction fs generalizing bs with
  | nil => simp [mergeFields, lookupField]
  | cons p rest ih =>
    obtain ⟨k1, fv1⟩ := p
    simp only [List.map_cons, List.nodup_cons] at hnd
    obtain ⟨hk1, hrest⟩ := hnd
    by_cases h1 : k1 = k
    · subst h1
      have hnone : lookupField rest k1 = none := by
        apply lookupField_eq_none
        simpa using hk1
      simp [mergeFields, ih _ hrest, lookupField, hnone, lookup_jsSet]
    · simp [mergeFields, ih _ hrest, lookupField, h1, lookup_jsSet]

theorem getField_merge (chart : JValue) (fs : List (String × JValue)) (k : String)
    (hnd : (fs.map Prod.fst).Nodup) :
    getField (mergeOptions chart (.obj fs)) k =
      match lookupField fs k with
      | none => getField chart k
      | some fv =>
          some (match getField chart k with
                | some bv => mergeOptions bv fv
                | none => fv) := by
  cases chart with
  | obj bs =>
    rw [mergeOptions_obj_obj]
    simpa [getField] using lookup_mergeFields fs bs k hnd
  | str s =>
    cases h : lookupField fs k <;> simp [mergeOptions, getField, h]
  | num n =>
    cases h : lookupField fs k <;> simp [mergeOptions, getField, h]
  | bool b =>
    cases h : lookupField fs k <;> simp [mergeOptions, getField, h]
  | null =>
    cases h : lookupField fs k <;> simp [mergeOptions, getField, h]
  | arr xs =>
    cases h : lookupField fs k <;> simp [mergeOptions, getField, h]

theorem getField_eq_some (chart : JValue) (k : String) (v : JValue)
    (h : getField chart k = some v) :
    ∃ cf, chart = .obj cf ∧ lookupField cf k = some v := by
  cases chart <;> simp_all [getField]

theorem getDatasets_eq_some (chart : JValue) (ds : List JValue) :
    getDatasets chart = some ds ↔
      ∃ cf df, chart = .obj cf ∧ lookupField cf "data" = some (.obj df) ∧
        lookupField df "datasets" = some (.arr ds) := by
  constructor
  · intro h
    unfold getDatasets at h
    split at h
    · next df hdf =>
        split at h
        · next ds0 hds0 =>
            obtain ⟨cf, hcf, hl⟩ := getField_eq_some _ _ _ hdf
            cases h
            exact ⟨cf, df, hcf, hl, hds0⟩
        · exact absurd h (by simp)
    · exact absurd h (by simp)
  · rintro ⟨cf, df, rfl, hd, hds⟩
    simp [getDatasets, getField, hd, hds]

/-! ## Characterization of the per-dataset hooks -/

theorem lookupField_fieldsOf (d : JValue) (k : String) :
    lookupField (fieldsOf d) k = getField d k := by
  cases d <;> simp [fieldsOf, getField, lookupField]

theorem colorsEntry_borderColor (colors : List JValue) (i : Nat) (d : JValue) :
    getField (colorsEntry colors i d) "borderColor" = some (cycleAt colors i) := by
  simp [colorsEntry, getField, lookup_jsSet]

theorem colorsEntry_backgroundColor (colors : List JValue) (i : Nat) (d : JValue) :
    getField (colorsEntry colors i d) "backgroundColor" = some (cycleAt colors i) := by
  simp [colorsEntry, getField, lookup_jsSet]

theorem colorsEntry_other (colors : List JValue) (i : Nat) (d : JValue) (k : String)
    (h1 : k ≠ "borderColor") (h2 : k ≠ "backgroundColor") :
    getField (colorsEntry colors i d) k = getField d k := by
  have h1' : ¬ ("borderColor" = k) := fun h => h1 h.symm
  have h2' : ¬ ("backgroundColor" = k) := fun h => h2 h.symm
  simp [colorsEntry, getField, lookup_jsSet, h1', h2', lookupField_fieldsOf]

theorem getDatasets_colorsHook (colors : List JValue) (chart : JValue) (ds : List JValue)
    (h : getDatasets chart = some ds) :
    getDatasets (colorsHook colors chart) =
      some (mapWithIndexFrom (colorsEntry colors) 0 ds) := by
  obtain ⟨cf, df, rfl, hd, hds⟩ := (getDatasets_eq_some _ _).mp h
  simp [colorsHook, hd, hds, getDatasets, getField, lookup_jsSet]

theorem colorsHook_of_no_datasets (colors : List JValue) (chart : JValue)
    (h : getDatasets chart = none) : colorsHook colors chart = chart := by
  cases chart with
  | obj cf =>
    cases hd : lookupField cf "data" with
    | none => simp [colorsHook, hd]
    | some d =>
      cases d with
      | obj df =>
        cases hds : lookupField df "datasets" with
        | none => simp [colorsHook, hd, hds]
        | some dsv =>
          cases dsv with
          | arr ds0 => simp [getDatasets, getField, hd, hds] at h
          | str s => simp [colorsHook, hd, hds]
          | num n => simp [colorsHook, hd, hds]
          | bool b => simp [colorsHook, hd, hds]
          | null => simp [colorsHook, hd, hds]
          | obj o => simp [colorsHook, hd, hds]
      | str s => simp [colorsHook, hd]
      | num n => simp [colorsHook, hd]
      | bool b => simp [colorsHook, hd]
      | null => simp [colorsHook, hd]
      | arr xs => simp [colorsHook, hd]
  | str s => simp [colorsHook]
  | num n => simp [colorsHook]
  | bool b => simp [colorsHook]
  | null => simp [colorsHook]
  | arr xs => simp [colorsHook]

theorem getField_colorsHook_other (colors : List JValue) (chart : JValue) (k : String)
    (hk : k ≠ "data") :
    getField (colorsHook colors chart) k = getField chart k := by
  have hk' : ¬ ("data" = k) := fun h => hk h.symm
  cases h : getDatasets chart with
  | none => rw [colorsHook_of_no_datasets colors chart h]
  | some ds =>
    obtain ⟨cf, df, rfl, hd, hds⟩ := (getDatasets_eq_some _ _).mp h
    simp [colorsHook, hd, hds, getField, lookup_jsSet, hk']

/-- The per-entry rebuild performed by the `datasets` hook. -/
def datasetsEntry (t : List JValue) (i : Nat) (d : JValue) : JValue :=
  spreadMerge d (cycleAt t i)

theorem datasetsEntry_lookup (t : List JValue) (i : Nat) (d : JValue) (k : String) :
    getField (datasetsEntry t i d) k =
      orField (lookupLast (fieldsOf (cycleAt t i)) k) (getField d k) := by
  simp [datasetsEntry, spreadMerge, getField, lookup_jsSetMany, lookupField_fieldsOf]

theorem datasetsHook_of_no_datasets (t : List JValue) (general : String)
    (cf : List (String × JValue)) (h : getDatasets (.obj cf) = none) :
    datasetsHook t general (.obj cf) = .obj (jsSet cf "type" (.str general)) := by
  cases hd : lookupField cf "data" with
  | none => simp [datasetsHook, hd]
  | some d =>
    cases d with
    | obj df =>
      cases hds : lookupField df "datasets" with
      | none => simp [datasetsHook, hd, hds]
      | some dsv =>
        cases dsv with
        | arr ds0 => simp [getDatasets, getField, hd, hds] at h
        | str s => simp [datasetsHook, hd, hds]
        | num n => simp [datasetsHook, hd, hds]
        | bool b => simp [datasetsHook, hd, hds]
        | null => simp [datasetsHook, hd, hds]
        | obj o => simp [datasetsHook, hd, hds]
    | str s => simp [datasetsHook, hd]
    | num n => simp [datasetsHook, hd]
    | bool b => simp [datasetsHook, hd]
    | null => simp [datasetsHook, hd]
    | arr xs => simp [datasetsHook, hd]

theorem getDatasets_datasetsHook (t : List JValue) (general : String) (chart : JValue)
    (ds : List JValue) (h : getDatasets chart = some ds) :
    getDatasets (datasetsHook t general chart) =
      some (mapWithIndexFrom (datasetsEntry t) 0 ds) := by
  obtain ⟨cf, df, rfl, hd, hds⟩ := (getDatasets_eq_some _ _).mp h
  have hd' : lookupField (jsSet cf "type" (.str general)) "data" = some (.obj df) := by
    simp [lookup_jsSet, hd]
  simp [datasetsHook, hd, hds, getDatasets, getField, lookup_jsSet]
  rfl

theorem getField_datasetsHook_type (t : List JValue) (general : String)
    (cf : List (String × JValue)) :
    getField (datasetsHook t general (.obj cf)) "type" = some (.str general) := by
  cases hd : lookupField cf "data" with
  | none => simp [datasetsHook, hd, getField, lookup_jsSet]
  | some d =>
    cases d with
    | obj df =>
      cases hds : lookupField df "datasets" with
      | none => simp [datasetsHook, hd, hds, getField, lookup_jsSet]
      | some dsv =>
        cases dsv with
        | arr ds0 => simp [datasetsHook, hd, hds, getField, lookup_jsSet]
        | str s => simp [datasetsHook, hd, hds, getField, lookup_jsSet]
        | num n => simp [datasetsHook, hd, hds, getField, lookup_jsSet]
        | bool b => simp [datasetsHook, hd, hds, getField, lookup_jsSet]
        | null => simp [datasetsHook, hd, hds, getField, lookup_jsSet]
        | obj o => simp [datasetsHook, hd, hds, getField, lookup_jsSet]
    | str s => simp [datasetsHook, hd, getField, lookup_jsSet]
    | num n => simp [datasetsHook, hd, getField, lookup_jsSet]
    | bool b => simp [datasetsHook, hd, getField, lookup_jsSet]
    | null => simp [datasetsHook, hd, getField, lookup_jsSet]
    | arr xs => simp [datasetsHook, hd, getField, lookup_jsSet]

theorem getField_datasetsHook_other (t : List JValue) (general : String) (chart : JValue)
    (k : String) (hk1 : k ≠ "type") (hk2 : k ≠ "data") :
    getField (datasetsHook t general chart) k = getField chart k := by
  have hk1' : ¬ ("type" = k) := fun h => hk1 h.symm
  have hk2' : ¬ ("data" = k) := fun h => hk2 h.symm
  cases chart with
  | obj cf =>
    cases h : getDatasets (.obj cf) with
    | none =>
      rw [datasetsHook_of_no_datasets t general cf h]
      simp [getField, lookup_jsSet, hk1']
    | some ds =>
      obtain ⟨cf2, df, heq, hd, hds⟩ := (getDatasets_eq_some _ _).mp h
      cases heq
      simp [datasetsHook, hd, hds, getField, lookup_jsSet, hk1', hk2']
  | str s => simp [datasetsHook]
  | num n => simp [datasetsHook]
  | bool b => simp [datasetsHook]
  | null => simp [datasetsHook]
  | arr xs => simp [datasetsHook]

/-! ## Claim theorems -/

/-- C1: applying the hook registered by `colors()` to a configuration whose
dataset sequence has length n, with a palette of length k, sets for dataset i
`borderColor` and `backgroundColor` both to `palette[i mod k]` for every
i in [0, n); when no palette override is given, the registered hook uses
the process-wide default palette. -/
theorem C1_colors_cycles :
    (∀ self : Hooks,
       (Hooks.colorsDefault self).hooks = self.hooks ++ [colorsHook colorPalette]) ∧
    ∀ (palette : List JValue) (chart : JValue) (ds : List JValue),
      palette ≠ [] → getDatasets chart = some ds →
      ∃ ds2 : List JValue,
        getDatasets (colorsHook palette chart) = some ds2 ∧
        ds2.length = ds.length ∧
        ∀ i, i < ds.length →
          i % palette.length < palette.length ∧
          getField (ds2.getD i .null) "borderColor" =
            some (palette.getD (i % palette.length) .null) ∧
          getField (ds2.getD i .null) "backgroundColor" =
            some (palette.getD (i % palette.length) .null) := by
  refine ⟨fun self => rfl, ?_⟩
  intro palette chart ds hpal hds
  refine ⟨mapWithIndexFrom (colorsEntry palette) 0 ds,
    getDatasets_colorsHook _ _ _ hds, length_mapWithIndexFrom _ _ _, ?_⟩
  intro i hi
  have hlen : 0 < palette.length := List.length_pos.mpr hpal
  have hged : (mapWithIndexFrom (colorsEntry palette) 0 ds).getD i .null =
      colorsEntry palette i (ds.getD i .null) := by
    simpa using getD_mapWithIndexFrom (colorsEntry palette) 0 ds i .null hi
  refine ⟨Nat.mod_lt _ hlen, ?_, ?_⟩
  · rw [hged, colorsEntry_borderColor]
    simp [cycleAt]
  · rw [hged, colorsEntry_backgroundColor]
    simp [cycleAt]

/-- Witness for C1: a two-color palette cycled over a three-dataset
configuration. -/
theorem C1_colors_cycles_witness :
    (([JValue.str "red", JValue.str "blue"] : List JValue) ≠ [] ∧
     getDatasets (JValue.obj [("type", JValue.str "line"),
       ("data", JValue.obj [("datasets", JValue.arr
         [JValue.obj [("label", JValue.str "a")], JValue.obj [], JValue.obj []])])]) =
       some [JValue.obj [("label", JValue.str "a")], JValue.obj [], JValue.obj []]) ∧
    (∃ ds2 : List JValue,
      getDatasets (colorsHook [JValue.str "red", JValue.str "blue"]
        (JValue.obj [("type", JValue.str "line"),
          ("data", JValue.obj [("datasets", JValue.arr
            [JValue.obj [("label", JValue.str "a")], JValue.obj [], JValue.obj []])])])) =
        some ds2 ∧
      ds2.length = 3 ∧
      ∀ i, i < 3 →
        i % 2 < 2 ∧
        getField (ds2.getD i .null) "borderColor" =
          some (([JValue.str "red", JValue.str "blue"] : List JValue).getD (i % 2) .null) ∧
        getField (ds2.getD i .null) "backgroundColor" =
          some (([JValue.str "red", JValue.str "blue"] : List JValue).getD (i % 2) .null)) :=
  ⟨⟨by simp, rfl⟩,
   C1_colors_cycles.2 [JValue.str "red", JValue.str "blue"]
     (JValue.obj [("type", JValue.str "line"),
       ("data", JValue.obj [("datasets", JValue.arr
         [JValue.obj [("label", JValue.str "a")], JValue.obj [], JValue.obj []])])])
     [JValue.obj [("label", JValue.str "a")], JValue.obj [], JValue.obj []]
     (by simp) rfl⟩

/-- C10: the hook registered by `colors()` returns a dataset sequence of
the same length in which every entry keeps all of its fields unchanged
except `borderColor` and `backgroundColor`, the only fields it sets. -/
theorem C10_colors_frame :
    ∀ (palette : List JValue) (chart : JValue) (ds : List JValue),
      getDatasets chart = some ds →
      ∃ ds2 : List JValue,
        getDatasets (colorsHook palette chart) = some ds2 ∧
        ds2.length = ds.length ∧
        (∀ i, i < ds.length → ∀ k, k ≠ "borderColor" → k ≠ "backgroundColor" →
          getField (ds2.getD i .null) k = getField (ds.getD i .null) k) ∧
        (∀ i, i < ds.length →
          getField (ds2.getD i .null) "borderColor" = some (cycleAt palette i) ∧
          getField (ds2.getD i .null) "backgroundColor" = some (cycleAt palette i)) := by
  intro palette chart ds hds
  refine ⟨mapWithIndexFrom (colorsEntry palette) 0 ds,
    getDatasets_colorsHook _ _ _ hds, length_mapWithIndexFrom _ _ _, ?_, ?_⟩
  · intro i hi k hk1 hk2
    have hged : (mapWithIndexFrom (colorsEntry palette) 0 ds).getD i .null =
        colorsEntry palette i (ds.getD i .null) := by
      simpa using getD_mapWithIndexFrom (colorsEntry palette) 0 ds i .null hi
    rw [hged, colorsEntry_other _ _ _ _ hk1 hk2]
  · intro i hi
    have hged : (mapWithIndexFrom (colorsEntry palette) 0 ds).getD i .null =
        colorsEntry palette i (ds.getD i .null) := by
      simpa using getD_mapWithIndexFrom (colorsEntry palette) 0 ds i .null hi
    rw [hged, colorsEntry_borderColor, colorsEntry_backgroundColor]
    exact ⟨rfl, rfl⟩

/-- Witness for C10: a dataset entry with a pre-existing label and color
keeps its label and has only its colors rewritten. -/
theorem C10_colors_frame_witness :
    getDatasets (JValue.obj [("data", JValue.obj [("datasets", JValue.arr
      [JValue.obj [("label", JValue.str "x"), ("borderColor", JValue.str "old")],
       JValue.obj [("label", JValue.str "y")]])])]) =
      some [JValue.obj [("label", JValue.str "x"), ("borderColor", JValue.str "old")],
            JValue.obj [("label", JValue.str "y")]] ∧
    (∃ ds2 : List JValue,
      getDatasets (colorsHook [JValue.str "c0"]
        (JValue.obj [("data", JValue.obj [("datasets", JValue.arr
          [JValue.obj [("label", JValue.str "x"), ("borderColor", JValue.str "old")],
           JValue.obj [("label", JValue.str "y")]])])])) = some ds2 ∧
      ds2.length = 2 ∧
      (∀ i, i < 2 → ∀ k, k ≠ "borderColor" → k ≠ "backgroundColor" →
        getField (ds2.getD i .null) k =
          getField (([JValue.obj [("label", JValue.str "x"), ("borderColor", JValue.str "old")],
            JValue.obj [("label", JValue.str "y")]] : List JValue).getD i .null) k) ∧
      (∀ i, i < 2 →
        getField (ds2.getD i .null) "borderColor" = some (cycleAt [JValue.str "c0"] i) ∧
        getField (ds2.getD i .null) "backgroundColor" = some (cycleAt [JValue.str "c0"] i))) :=
  ⟨rfl,
   C10_colors_frame [JValue.str "c0"]
     (JValue.obj [("data", JValue.obj [("datasets", JValue.arr
       [JValue.obj [("label", JValue.str "x"), ("borderColor", JValue.str "old")],
        JValue.obj [("label", JValue.str "y")]])])])
     [JValue.obj [("label", JValue.str "x"), ("borderColor", JValue.str "old")],
      JValue.obj [("label", JValue.str "y")]] rfl⟩

/-- C5: the hook registered by `datasets(types, general)` sets the
top-level chart type to `general` (default `bar`) and, for every index
i < n, rebuilds dataset i by merging the normalized list entry at
position `i mod length` onto it — existing dataset fields are preserved
except those the fragment overrides. -/
theorem C5_datasets_cycles :
    (∀ (self : Hooks) (types : TypesArg),
       Hooks.datasetsDefault self types = Hooks.datasets self types "bar") ∧
    ∀ (types : TypesArg) (general : String) (chart : JValue) (ds : List JValue),
      getDatasets chart = some ds →
      normalizeTypes types ≠ [] →
      getField (datasetsHook (normalizeTypes types) general chart) "type" =
        some (.str general) ∧
      ∃ ds2 : List JValue,
        getDatasets (datasetsHook (normalizeTypes types) general chart) = some ds2 ∧
        ds2.length = ds.length ∧
        ∀ i, i < ds.length →
          i % (normalizeTypes types).length < (normalizeTypes types).length ∧
          ∀ k, getField (ds2.getD i .null) k =
            orField (lookupLast (fieldsOf (cycleAt (normalizeTypes types) i)) k)
              (getField (ds.getD i .null) k) := by
  refine ⟨fun self types => rfl, ?_⟩
  intro types general chart ds hds hne
  obtain ⟨cf, df, rfl, hd, hdss⟩ := (getDatasets_eq_some _ _).mp hds
  refine ⟨getField_datasetsHook_type _ _ _, mapWithIndexFrom (datasetsEntry (normalizeTypes types)) 0 ds,
    getDatasets_datasetsHook _ _ _ _ hds, length_mapWithIndexFrom _ _ _, ?_⟩
  intro i hi
  have hlen : 0 < (normalizeTypes types).length := List.length_pos.mpr hne
  have hged : (mapWithIndexFrom (datasetsEntry (normalizeTypes types)) 0 ds).getD i .null =
      datasetsEntry (normalizeTypes types) i (ds.getD i .null) := by
    simpa using getD_mapWithIndexFrom (datasetsEntry (normalizeTypes types)) 0 ds i .null hi
  refine ⟨Nat.mod_lt _ hlen, ?_⟩
  intro k
  rw [hged, datasetsEntry_lookup]

/-- Witness for C5: the example from the spec: `datasets` with the list [line, bar] on a
five-dataset configuration assigns types line, bar, line, bar, line and
sets the top-level type to the default `bar`. -/
theorem C5_datasets_cycles_witness :
    (getDatasets (JValue.obj [("data", JValue.obj [("datasets", JValue.arr
       [JValue.obj [], JValue.obj [], JValue.obj [], JValue.obj [], JValue.obj []])])]) =
       some [JValue.obj [], JValue.obj [], JValue.obj [], JValue.obj [], JValue.obj []] ∧
     normalizeTypes (.list [.type "line", .type "bar"]) ≠ []) ∧
    getDatasets (datasetsHook (normalizeTypes (.list [.type "line", .type "bar"])) "bar"
      (JValue.obj [("data", JValue.obj [("datasets", JValue.arr
        [JValue.obj [], JValue.obj [], JValue.obj [], JValue.obj [], JValue.obj []])])])) =
      some [JValue.obj [("type", JValue.str "line")], JValue.obj [("type", JValue.str "bar")],
            JValue.obj [("type", JValue.str "line")], JValue.obj [("type", JValue.str "bar")],
            JValue.obj [("type", JValue.str "line")]] ∧
    (getField (datasetsHook (normalizeTypes (.list [.type "line", .type "bar"])) "bar"
       (JValue.obj [("data", JValue.obj [("datasets", JValue.arr
         [JValue.obj [], JValue.obj [], JValue.obj [], JValue.obj [], JValue.obj []])])])) "type" =
       some (.str "bar") ∧
     ∃ ds2 : List JValue,
       getDatasets (datasetsHook (normalizeTypes (.list [.type "line", .type "bar"])) "bar"
         (JValue.obj [("data", JValue.obj [("datasets", JValue.arr
           [JValue.obj [], JValue.obj [], JValue.obj [], JValue.obj [], JValue.obj []])])])) =
         some ds2 ∧
       ds2.length = 5 ∧
       ∀ i, i < 5 →
         i % 2 < 2 ∧
         ∀ k, getField (ds2.getD i .null) k =
           orField (lookupLast (fieldsOf (cycleAt (normalizeTypes (.list [.type "line", .type "bar"])) i)) k)
             (getField (([JValue.obj [], JValue.obj [], JValue.obj [], JValue.obj [],
               JValue.obj []] : List JValue).getD i .null) k)) :=
  ⟨⟨rfl, by simp [normalizeTypes]⟩, rfl,
   C5_datasets_cycles.2 (.list [.type "line", .type "bar"]) "bar"
     (JValue.obj [("data", JValue.obj [("datasets", JValue.arr
       [JValue.obj [], JValue.obj [], JValue.obj [], JValue.obj [], JValue.obj []])])])
     [JValue.obj [], JValue.obj [], JValue.obj [], JValue.obj [], JValue.obj []]
     rfl (by simp [normalizeTypes])⟩

/-- C2: the merge engine, for every key present in the fragment, merges
recursively when both sides are mappings (union of key sets, fragment wins
on conflict), otherwise replaces the base value wholesale; keys only in the
base are preserved; an array in the fragment always fully replaces the
base value. -/
theorem C2_merge_engine :
    (∀ (bs fs : List (String × JValue)) (k : String), (fs.map Prod.fst).Nodup →
       lookupField (mergeFields bs fs) k =
         match lookupField fs k with
         | none => lookupField bs k
         | some fv =>
             some (match lookupField bs k with
                   | some bv => mergeOptions bv fv
                   | none => fv)) ∧
    (∀ bs fs : List (String × JValue),
       mergeOptions (.obj bs) (.obj fs) = .obj (mergeFields bs fs)) ∧
    (∀ b fv : JValue, isObj b = false ∨ isObj fv = false → mergeOptions b fv = fv) ∧
    (∀ (b : JValue) (xs : List JValue), mergeOptions b (.arr xs) = .arr xs) :=
  ⟨fun bs fs k h => lookup_mergeFields fs bs k h,
   mergeOptions_obj_obj, mergeOptions_replace, mergeOptions_arr⟩

/-- Witness for C2: merging a nested fragment onto a base recursively
merges the shared mapping key, and a non-mapping fragment value replaces
the base value wholesale. -/
theorem C2_merge_engine_witness :
    (([("b", JValue.obj [("d", JValue.num 3)]), ("e", JValue.num 4)].map
        (Prod.fst (α := String) (β := JValue))).Nodup) ∧
    lookupField (mergeFields [("a", JValue.num 1), ("b", JValue.obj [("c", JValue.num 2)])]
        [("b", JValue.obj [("d", JValue.num 3)]), ("e", JValue.num 4)]) "b" =
      some (mergeOptions (JValue.obj [("c", JValue.num 2)]) (JValue.obj [("d", JValue.num 3)])) ∧
    mergeOptions (JValue.arr [JValue.num 5]) (JValue.num 7) = JValue.num 7 := by
  refine ⟨by simp, ?_, C2_merge_engine.2.2.1 _ _ (Or.inl rfl)⟩
  have h := C2_merge_engine.1 [("a", JValue.num 1), ("b", JValue.obj [("c", JValue.num 2)])]
    [("b", JValue.obj [("d", JValue.num 3)]), ("e", JValue.num 4)] "b" (by simp)
  simpa [lookupField] using h

/-! ## Path lemmas for merge-based hooks -/

theorem getField_merge_single (chart : JValue) (k : String) (v : JValue) :
    getField (mergeOptions chart (.obj [(k, v)])) k =
      some (match getField chart k with
            | some bv => mergeOptions bv v
            | none => v) := by
  have h := getField_merge chart [(k, v)] k (by simp)
  simpa [lookupField] using h


theorem getField_merge_single_none (chart : JValue) (k : String) (v : JValue)
    (h : getField chart k = none) :
    getField (mergeOptions chart (.obj [(k, v)])) k = some v := by
  have h0 := getField_merge chart [(k, v)] k (by simp)
  rw [h] at h0
  simpa [lookupField] using h0

theorem getField_merge_single_some (chart : JValue) (k : String) (v bv : JValue)
    (h : getField chart k = some bv) :
    getField (mergeOptions chart (.obj [(k, v)])) k = some (mergeOptions bv v) := by
  have h0 := getField_merge chart [(k, v)] k (by simp)
  rw [h] at h0
  simpa [lookupField] using h0

theorem getField_merge_axes_field (b2 : JValue) (d : Bool) (ax : String)
    (hax : ax = "xAxes" ∨ ax = "yAxes") :
    getField (mergeOptions b2 (JValue.obj
      [("xAxes", JValue.arr [JValue.obj [("display", JValue.bool d)]]),
       ("yAxes", JValue.arr [JValue.obj [("display", JValue.bool d)]])])) ax =
      some (JValue.arr [JValue.obj [("display", JValue.bool d)]]) := by
  have h := getField_merge b2
    [("xAxes", JValue.arr [JValue.obj [("display", JValue.bool d)]]),
     ("yAxes", JValue.arr [JValue.obj [("display", JValue.bool d)]])] ax (by simp)
  rcases hax with rfl | rfl
  · cases hb : getField b2 "xAxes" with
    | none => rw [hb] at h; simpa [lookupField] using h
    | some b3 => rw [hb] at h; simpa [lookupField, mergeOptions_arr] using h
  · cases hb : getField b2 "yAxes" with
    | none => rw [hb] at h; simpa [lookupField] using h
    | some b3 => rw [hb] at h; simpa [lookupField, mergeOptions_arr] using h

theorem getPath_merge_axes (chart : JValue) (d : Bool) (ax : String)
    (hax : ax = "xAxes" ∨ ax = "yAxes") :
    getPath (mergeOptions chart (JValue.obj [("options", JValue.obj [("scales", JValue.obj
      [("xAxes", JValue.arr [JValue.obj [("display", JValue.bool d)]]),
       ("yAxes", JValue.arr [JValue.obj [("display", JValue.bool d)]])])])]))
      ["options", "scales", ax] =
      some (JValue.arr [JValue.obj [("display", JValue.bool d)]]) := by
  cases hco : getField chart "options" with
  | none =>
    have h1 := getField_merge_single_none chart "options" (JValue.obj [("scales", JValue.obj
      [("xAxes", JValue.arr [JValue.obj [("display", JValue.bool d)]]),
       ("yAxes", JValue.arr [JValue.obj [("display", JValue.bool d)]])])]) hco
    simp only [getPath, h1]
    rcases hax with rfl | rfl <;> simp [getPath, getField, lookupField]
  | some bv =>
    have h1 := getField_merge_single_some chart "options" (JValue.obj [("scales", JValue.obj
      [("xAxes", JValue.arr [JValue.obj [("display", JValue.bool d)]]),
       ("yAxes", JValue.arr [JValue.obj [("display", JValue.bool d)]])])]) bv hco
    simp only [getPath, h1]
    cases hcs : getField bv "scales" with
    | none =>
      have h2 := getField_merge_single_none bv "scales" (JValue.obj
        [("xAxes", JValue.arr [JValue.obj [("display", JValue.bool d)]]),
         ("yAxes", JValue.arr [JValue.obj [("display", JValue.bool d)]])]) hcs
      simp only [getPath, h2]
      rcases hax with rfl | rfl <;> simp [getPath, getField, lookupField]
    | some b2 =>
      have h2 := getField_merge_single_some bv "scales" (JValue.obj
        [("xAxes", JValue.arr [JValue.obj [("display", JValue.bool d)]]),
         ("yAxes", JValue.arr [JValue.obj [("display", JValue.bool d)]])]) b2 hcs
      simp only [getPath, h2]
      simp only [getPath, getField_merge_axes_field b2 d ax hax]

/-- C8: applying the chain `displayAxes(true, strict=false)` followed by
`displayAxes(false, strict=false)` to any base configuration yields
`options.scales.xAxes` and `options.scales.yAxes` equal exactly to the
single-entry display-flag arrays of the second call — wholesale
replacement, not accumulation. -/
theorem C8_displayAxes_replacement :
    ∀ base : JValue,
      getPath (applyHooks (Hooks.displayAxes (Hooks.displayAxes ⟨[]⟩ true false) false false) base)
        ["options", "scales", "xAxes"] =
        some (.arr [.obj [("display", .bool false)]]) ∧
      getPath (applyHooks (Hooks.displayAxes (Hooks.displayAxes ⟨[]⟩ true false) false false) base)
        ["options", "scales", "yAxes"] =
        some (.arr [.obj [("display", .bool false)]]) := by
  intro base
  have hdef : applyHooks (Hooks.displayAxes (Hooks.displayAxes ⟨[]⟩ true false) false false) base =
      mergeOptions (displayAxesHook true false base)
        (JValue.obj [("options", JValue.obj [("scales", JValue.obj
          [("xAxes", JValue.arr [JValue.obj [("display", JValue.bool false)]]),
           ("yAxes", JValue.arr [JValue.obj [("display", JValue.bool false)]])])])]) := rfl
  rw [hdef]
  exact ⟨getPath_merge_axes _ false _ (Or.inl rfl),
         getPath_merge_axes _ false _ (Or.inr rfl)⟩

/-- C7: `minimalist(value)` builds exactly the chain of
`legend(\x7bdisplay: !value\x7d)` followed by `displayAxes(!value)` at the
same position, so applying the two chains to any base configuration gives
equal results. -/
theorem C7_minimalist_equiv :
    ∀ (self : Hooks) (value : Bool),
      Hooks.minimalist self value =
        Hooks.displayAxes (Hooks.legend self (.options [("display", .bool (!value))]))
          (!value) false ∧
      (Hooks.minimalist self value).hooks =
        self.hooks ++ [legendHook [("display", .bool (!value))],
                       displayAxesHook (!value) false] ∧
      ∀ base : JValue,
        applyHooks (Hooks.minimalist self value) base =
          applyHooks (Hooks.displayAxes (Hooks.legend self
            (.options [("display", .bool (!value))])) (!value) false) base := by
  intro self value
  refine ⟨rfl, ?_, fun base => rfl⟩
  simp [Hooks.minimalist, Hooks.legend, Hooks.displayAxes, Hooks.push, normalizeLegend]

theorem orField_none (o : Option JValue) : orField o none = o := by
  cases o <;> rfl

/-- C6: `title` normalizes its argument at registration time — a bare
string becomes a text fragment with display true; an options fragment gets
display true unless it specifies its own display, so an explicit
display false is kept; the concrete Revenue examples; and the registered
hook closes over the normalized value. -/
theorem C6_title_normalization :
    (∀ s, normalizeTitle (.str s) = .obj [("text", .str s), ("display", .bool true)]) ∧
    (∀ fs, lookupLast fs "display" = none →
       getField (normalizeTitle (.options fs)) "display" = some (.bool true)) ∧
    (∀ fs v, lookupLast fs "display" = some v →
       getField (normalizeTitle (.options fs)) "display" = some v) ∧
    (∀ fs k, k ≠ "display" →
       getField (normalizeTitle (.options fs)) k = lookupLast fs k) ∧
    (getField (normalizeTitle (.str "Revenue")) "text" = some (.str "Revenue") ∧
     getField (normalizeTitle (.str "Revenue")) "display" = some (.bool true)) ∧
    (getField (normalizeTitle
        (.options [("text", .str "Revenue"), ("display", .bool false)])) "text" =
        some (.str "Revenue") ∧
     getField (normalizeTitle
        (.options [("text", .str "Revenue"), ("display", .bool false)])) "display" =
        some (.bool false)) ∧
    (∀ (self : Hooks) (t : TitleArg),
       (Hooks.title self t).hooks = self.hooks ++ [titleHook (normalizeTitle t)]) := by
  refine ⟨fun s => rfl, ?_, ?_, ?_, ⟨rfl, rfl⟩, ⟨rfl, rfl⟩, fun self t => rfl⟩
  · intro fs h
    simp [normalizeTitle, getField, lookup_jsSetMany, h, orField, lookupField]
  · intro fs v h
    simp [normalizeTitle, getField, lookup_jsSetMany, h, orField]
  · intro fs k hk
    have hk' : ¬ ("display" = k) := fun h => hk h.symm
    simp [normalizeTitle, getField, lookup_jsSetMany, lookupField, hk', orField_none]

/-- Witness for C6: an options fragment without display gets display true;
the fragment with an explicit display false keeps it; a non-display key is
taken from the fragment. -/
theorem C6_title_normalization_witness :
    (lookupLast [("text", JValue.str "T")] "display" = none ∧
     getField (normalizeTitle (.options [("text", JValue.str "T")])) "display" =
       some (.bool true)) ∧
    (lookupLast [("text", JValue.str "Revenue"), ("display", JValue.bool false)] "display" =
       some (.bool false) ∧
     getField (normalizeTitle
       (.options [("text", JValue.str "Revenue"), ("display", JValue.bool false)])) "display" =
       some (.bool false)) ∧
    (("text" : String) ≠ "display" ∧
     getField (normalizeTitle
       (.options [("text", JValue.str "Revenue"), ("display", JValue.bool false)])) "text" =
       lookupLast [("text", JValue.str "Revenue"), ("display", JValue.bool false)] "text") :=
  ⟨⟨rfl, C6_title_normalization.2.1 _ rfl⟩,
   ⟨rfl, C6_title_normalization.2.2.1 _ _ rfl⟩,
   ⟨by simp, C6_title_normalization.2.2.2.1 _ _ (by simp)⟩⟩

/-- C3 counterexample: the hook registered by `datasets` reassigns the
top-level chart-type tag of the configuration it is applied to — on a
configuration tagged `line` the result is tagged `bar` — and the source
performs this as `chart.type = general` on the very object the caller
passed in before returning that same object. -/
theorem C3_counterexample_type_reassigned :
    getField (datasetsHook (normalizeTypes (.single "line")) "bar"
      (JValue.obj [("type", JValue.str "line"),
        ("data", JValue.obj [("datasets", JValue.arr [JValue.obj []])])])) "type" ≠
    getField (JValue.obj [("type", JValue.str "line"),
      ("data", JValue.obj [("datasets", JValue.arr [JValue.obj []])])]) "type" := by
  have h1 : getField (datasetsHook (normalizeTypes (.single "line")) "bar"
      (JValue.obj [("type", JValue.str "line"),
        ("data", JValue.obj [("datasets", JValue.arr [JValue.obj []])])])) "type" =
      some (JValue.str "bar") := rfl
  have h2 : getField (JValue.obj [("type", JValue.str "line"),
      ("data", JValue.obj [("datasets", JValue.arr [JValue.obj []])])]) "type" =
      some (JValue.str "line") := rfl
  rw [h1, h2]
  simp

/-- C3 amended: each hook changes only the fields it targets — a
merge-based hook only the `options` field, the colors hook only the `data`
field, the datasets hook only `data` and the top-level chart-type tag,
which it does reassign to its general argument; all other top-level fields
of the configuration are unchanged. -/
theorem C3_hook_frame :
    (∀ (frag chart : JValue) (k : String), k ≠ "options" →
       getField (mergeOptions chart (.obj [("options", frag)])) k = getField chart k) ∧
    (∀ (colors : List JValue) (chart : JValue) (k : String), k ≠ "data" →
       getField (colorsHook colors chart) k = getField chart k) ∧
    (∀ (t : List JValue) (general : String) (chart : JValue) (k : String),
       k ≠ "type" → k ≠ "data" →
       getField (datasetsHook t general chart) k = getField chart k) ∧
    (∀ (t : List JValue) (general : String) (cf : List (String × JValue)),
       getField (datasetsHook t general (.obj cf)) "type" = some (.str general)) := by
  refine ⟨?_, getField_colorsHook_other, getField_datasetsHook_other,
    getField_datasetsHook_type⟩
  intro frag chart k hk
  have hk' : ¬ ("options" = k) := fun h => hk h.symm
  have h := getField_merge chart [("options", frag)] k (by simp)
  simpa [lookupField, hk'] using h

/-- Witness for the amended C3 theorem: a merge-based hook and the
per-dataset hooks evaluated on a configuration tagged `pie`. -/
theorem C3_hook_frame_witness :
    (("type" : String) ≠ "options" ∧
     getField (mergeOptions (JValue.obj [("type", JValue.str "pie")])
       (.obj [("options", JValue.obj [("legend", JValue.obj [])])])) "type" =
       getField (JValue.obj [("type", JValue.str "pie")]) "type") ∧
    (("type" : String) ≠ "data" ∧
     getField (colorsHook [JValue.str "c0"] (JValue.obj [("type", JValue.str "pie")])) "type" =
       getField (JValue.obj [("type", JValue.str "pie")]) "type") ∧
    (("label" : String) ≠ "type" ∧ ("label" : String) ≠ "data" ∧
     getField (datasetsHook [JValue.obj [("type", JValue.str "line")]] "bar"
       (JValue.obj [("label", JValue.str "keep")])) "label" =
       getField (JValue.obj [("label", JValue.str "keep")]) "label") ∧
    getField (datasetsHook [JValue.obj [("type", JValue.str "line")]] "bar"
      (JValue.obj [("label", JValue.str "keep")])) "type" = some (.str "bar") :=
  ⟨⟨by simp, C3_hook_frame.1 (JValue.obj [("legend", JValue.obj [])])
      (JValue.obj [("type", JValue.str "pie")]) "type" (by simp)⟩,
   ⟨by simp, C3_hook_frame.2.1 [JValue.str "c0"]
      (JValue.obj [("type", JValue.str "pie")]) "type" (by simp)⟩,
   ⟨by simp, by simp, C3_hook_frame.2.2.1 [JValue.obj [("type", JValue.str "line")]] "bar"
      (JValue.obj [("label", JValue.str "keep")]) "label" (by simp) (by simp)⟩,
   C3_hook_frame.2.2.2 [JValue.obj [("type", JValue.str "line")]] "bar"
     [("label", JValue.str "keep")]⟩

/-- C4 counterexample: on a configuration with no dataset sequence the
hook registered by `datasets` is not a no-op — it still reassigns the
top-level chart-type tag, so the result differs from the input. -/
theorem C4_counterexample_not_noop :
    datasetsHook (normalizeTypes (.single "line")) "bar"
      (JValue.obj [("type", JValue.str "line")]) ≠
    JValue.obj [("type", JValue.str "line")] := by
  have h1 : datasetsHook (normalizeTypes (.single "line")) "bar"
      (JValue.obj [("type", JValue.str "line")]) =
      JValue.obj [("type", JValue.str "bar")] := rfl
  rw [h1]
  simp

/-- C4 amended: when the dataset sequence is absent at application time
the colors hook returns the configuration unchanged, and the datasets
hook leaves every field unchanged except the top-level chart-type tag,
which it still sets to its general argument; both hooks are total, so no
error is raised. -/
theorem C4_no_datasets :
    (∀ (colors : List JValue) (chart : JValue), getDatasets chart = none →
       colorsHook colors chart = chart) ∧
    (∀ (t : List JValue) (general : String) (cf : List (String × JValue)),
       getDatasets (.obj cf) = none →
       getField (datasetsHook t general (.obj cf)) "type" = some (.str general) ∧
       ∀ k, k ≠ "type" →
         getField (datasetsHook t general (.obj cf)) k = getField (.obj cf) k) := by
  refine ⟨colorsHook_of_no_datasets, ?_⟩
  intro t general cf h
  refine ⟨getField_datasetsHook_type t general cf, ?_⟩
  intro k hk
  have hk' : ¬ ("type" = k) := fun he => hk he.symm
  rw [datasetsHook_of_no_datasets t general cf h]
  simp [getField, lookup_jsSet, hk']

/-- Witness for the amended C4 theorem: a dataset-free configuration passed
to the colors hook is returned unchanged, and to the datasets hook comes
back with only its chart-type tag set. -/
theorem C4_no_datasets_witness :
    (getDatasets (JValue.obj [("type", JValue.str "line")]) = none ∧
     colorsHook [JValue.str "c0"] (JValue.obj [("type", JValue.str "line")]) =
       JValue.obj [("type", JValue.str "line")]) ∧
    (getDatasets (JValue.obj [("type", JValue.str "line")]) = none ∧
     getField (datasetsHook [JValue.obj [("type", JValue.str "pie")]] "bar"
       (JValue.obj [("type", JValue.str "line")])) "type" = some (.str "bar") ∧
     ∀ k, k ≠ "type" →
       getField (datasetsHook [JValue.obj [("type", JValue.str "pie")]] "bar"
         (JValue.obj [("type", JValue.str "line")])) k =
         getField (JValue.obj [("type", JValue.str "line")]) k) :=
  ⟨⟨rfl, C4_no_datasets.1 [JValue.str "c0"]
      (JValue.obj [("type", JValue.str "line")]) rfl⟩,
   ⟨rfl, C4_no_datasets.2 [JValue.obj [("type", JValue.str "pie")]] "bar"
      [("type", JValue.str "line")] rfl⟩⟩
